import Mathlib

/-!
Verification of the HangarScheduling repository.

Shallow embedding of the mixed-integer model built by `build_model`
(src/model.py), of the report rows written by `solve_and_report`
(src/model.py), of the metrics computed by `analyze_solution_csv`
(src/analyze_solution.py) and of the driver flow of `main`
(src/example_main.py).

Continuous Gurobi variables become rationals, `GRB.BINARY` variables
become booleans coerced to the rationals 0/1 by `b2q`.  A feasible
assignment of the built model is an `Assign` satisfying the `Feasible`
predicate, whose fields are the constraint families e02 - e22 of
model.py (named after the equation numbers used there), the variable
lower bounds set at `addVars` time, and the bound fixings of section
2.23 - 2.29 for current aircraft.
-/

namespace Hangar

/-- Aircraft identifiers, the keys of the parameter dictionaries. -/
abbrev AC := String

/-- The parameter dictionaries produced by `csvimport.build_parameters` and
unpacked at the top of `build_model`.  Dictionaries are embedded as total
functions; the key set of each dictionary is carried by the lists
`a` (all aircraft), `c` (current) and `f` (future) that `build_model`
receives alongside `params`.  `ETA`, `P_Rej`, `P_Arr` are populated only
for future aircraft, `X_init`, `Y_init` only for current aircraft. -/
structure Params where
  W : AC → ℚ
  L : AC → ℚ
  ETA : AC → ℚ
  ETD : AC → ℚ
  ServT : AC → ℚ
  P_Rej : AC → ℚ
  P_Arr : AC → ℚ
  P_Dep : AC → ℚ
  X_init : AC → ℚ
  Y_init : AC → ℚ

/-- One assignment of values to every variable family created in
`build_model` (`m.addVars`).  Binary families are boolean valued. -/
structure Assign where
  X : AC → ℚ
  Y : AC → ℚ
  Roll_in : AC → ℚ
  Roll_out : AC → ℚ
  D_Arr : AC → ℚ
  D_Dep : AC → ℚ
  Accept : AC → Bool
  Right : AC → AC → Bool
  Above : AC → AC → Bool
  OutIn : AC → AC → Bool
  InIn : AC → AC → Bool
  OutOut : AC → AC → Bool
  InOut : AC → AC → Bool

/-- Coercion of a binary variable value into the rational 0 or 1. -/
def b2q (b : Bool) : ℚ := if b then 1 else 0

/-- `max(ETA.values()) if ETA else 0.0` of model.py: the ETA dictionary is
keyed by the future aircraft, so its value set is the image of `f`. -/
def maxEta (P : Params) (f : List AC) : ℚ :=
  match f with
  | [] => 0
  | x :: xs => xs.foldl (fun m fi => max m (P.ETA fi)) (P.ETA x)

/-- The temporal big-M of model.py: `M_T = max_eta + sum(ServT[i] for i in a)`. -/
def M_T (P : Params) (a f : List AC) : ℚ :=
  maxEta P f + (a.map P.ServT).sum

/-- Helper for `ordIdx`: walks the list carrying the running enumeration
index (1-based) of the most recent occurrence of `x` seen so far, exactly
like the dict comprehension `{ai: idx+1 for idx, ai in enumerate(a)}`
overwrites earlier occurrences. -/
def lastPos1 (x : AC) : List AC → Nat → Nat → Nat
  | [], _, acc => acc
  | y :: ys, i, acc => lastPos1 x ys (i + 1) (if y = x then i + 1 else acc)

/-- `ord_idx` of model.py: the 1-based position of an aircraft id in the
list `a` (position of the last occurrence, 0 when absent). -/
def ordIdx (a : List AC) (x : AC) : Nat := lastPos1 x a 0 0

/-- Feasibility of an assignment for the model built by
`build_model(params, a, c, f, HW, HL, Buffer, epsilon_t, epsilon_p)`:
all linear constraints e02 - e22, the nonnegative lower bounds given at
variable creation, and the initial-condition bound fixings 2.23 - 2.29.
`M_X` and `M_Y` of model.py equal `HW` and `HL` and are inlined. -/
structure Feasible (P : Params) (a c f : List AC)
    (HW HL Buffer eps_t : ℚ) (v : Assign) : Prop where
  nonneg : ∀ ai ∈ a, 0 ≤ v.X ai ∧ 0 ≤ v.Y ai ∧ 0 ≤ v.Roll_in ai ∧
      0 ≤ v.Roll_out ai ∧ 0 ≤ v.D_Dep ai
  nonnegArr : ∀ fi ∈ f, 0 ≤ v.D_Arr fi
  e02 : ∀ fi ∈ f, v.X fi + v.Y fi + v.Roll_in fi + v.Roll_out fi +
      v.D_Arr fi + v.D_Dep fi ≤ (HW + HL + 4 * M_T P a f) * b2q (v.Accept fi)
  e03 : ∀ fi ∈ f, v.Roll_in fi ≥ P.ETA fi * b2q (v.Accept fi)
  e04 : ∀ ai ∈ a, v.Roll_out ai - v.Roll_in ai ≥ P.ServT ai * b2q (v.Accept ai)
  e05 : ∀ fi ∈ f, v.D_Arr fi ≥ v.Roll_in fi - P.ETA fi
  e06 : ∀ ai ∈ a, v.D_Dep ai ≥ v.Roll_out ai - P.ETD ai
  e07 : ∀ fi ∈ f, v.X fi ≥ Buffer * b2q (v.Accept fi)
  e08 : ∀ fi ∈ f, v.X fi + P.W fi ≤ HW - Buffer + HW * (1 - b2q (v.Accept fi))
  e09 : ∀ fi ∈ f, v.Y fi ≥ Buffer * b2q (v.Accept fi)
  e10 : ∀ fi ∈ f, v.Y fi + P.L fi ≤ HL - Buffer + HL * (1 - b2q (v.Accept fi))
  e11 : ∀ ai ∈ a, ∀ bi ∈ a, ai ≠ bi →
      v.X bi + P.W bi + Buffer ≤ v.X ai + HW * (1 - b2q (v.Right ai bi))
  e12 : ∀ ai ∈ a, ∀ bi ∈ a, ai ≠ bi →
      v.Y bi + P.L bi + Buffer ≤ v.Y ai + HL * (1 - b2q (v.Above ai bi))
  e13 : ∀ ai ∈ a, ∀ bi ∈ a, ordIdx a ai < ordIdx a bi →
      b2q (v.Right bi ai) + b2q (v.Right ai bi) + b2q (v.Above bi ai) +
        b2q (v.Above ai bi) + b2q (v.OutIn ai bi) + b2q (v.OutIn bi ai)
        ≥ b2q (v.Accept ai) + b2q (v.Accept bi) - 1
  e14 : ∀ ai ∈ a, ∀ bi ∈ a, ai ≠ bi →
      v.Roll_out ai + eps_t ≤ v.Roll_in bi + M_T P a f * (1 - b2q (v.OutIn ai bi))
  e15 : ∀ fi ∈ f, ∀ gi ∈ f, fi ≠ gi →
      v.Roll_in gi ≥ v.Roll_in fi + eps_t - M_T P a f * (1 - b2q (v.InIn fi gi))
        - M_T P a f * (2 - b2q (v.Accept fi) - b2q (v.Accept gi))
  e16 : ∀ fi ∈ f, ∀ gi ∈ f, fi ≠ gi →
      v.Roll_in fi ≥ v.Roll_in gi + eps_t - M_T P a f * b2q (v.InIn fi gi)
        - M_T P a f * (2 - b2q (v.Accept fi) - b2q (v.Accept gi))
  e17 : ∀ ai ∈ a, ∀ bi ∈ a, ordIdx a ai < ordIdx a bi →
      v.Roll_out bi ≥ v.Roll_out ai + eps_t - M_T P a f * (1 - b2q (v.OutOut ai bi))
        - M_T P a f * (2 - b2q (v.Accept ai) - b2q (v.Accept bi))
  e18 : ∀ ai ∈ a, ∀ bi ∈ a, ordIdx a ai < ordIdx a bi →
      v.Roll_out ai ≥ v.Roll_out bi + eps_t - M_T P a f * b2q (v.OutOut ai bi)
        - M_T P a f * (2 - b2q (v.Accept ai) - b2q (v.Accept bi))
  e19 : ∀ ai ∈ a, ∀ bi ∈ a, ai ≠ bi → ai ∈ f ∨ bi ∈ f →
      v.Roll_out bi ≥ v.Roll_in ai + eps_t - M_T P a f * (1 - b2q (v.InOut ai bi))
        - M_T P a f * (2 - b2q (v.Accept ai) - b2q (v.Accept bi))
  e20 : ∀ ai ∈ a, ∀ bi ∈ a, ai ≠ bi → ai ∈ f ∨ bi ∈ f →
      v.Roll_in ai ≥ v.Roll_out bi + eps_t - M_T P a f * b2q (v.InOut ai bi)
        - M_T P a f * (2 - b2q (v.Accept ai) - b2q (v.Accept bi))
  e21 : ∀ ai ∈ a, ∀ bi ∈ a, ai ≠ bi →
      v.Roll_out ai ≥ v.Roll_out bi + eps_t - M_T P a f *
        ((1 - b2q (v.Above bi ai)) + b2q (v.Right ai bi) + b2q (v.Right bi ai)
          + (1 - b2q (v.InIn ai bi)))
  e22 : ∀ ai ∈ a, ∀ bi ∈ a, ai ≠ bi → ai ∈ f ∨ bi ∈ f →
      v.Roll_in ai ≥ v.Roll_out bi + eps_t - M_T P a f *
        ((1 - b2q (v.Above bi ai)) + b2q (v.Right ai bi) + b2q (v.Right bi ai)
          + b2q (v.InIn ai bi))
  initAccept : ∀ ci ∈ c, v.Accept ci = true
  initX : ∀ ci ∈ c, v.X ci = P.X_init ci
  initY : ∀ ci ∈ c, v.Y ci = P.Y_init ci
  initRollIn : ∀ ci ∈ c, v.Roll_in ci = 0
  initInInCF : ∀ ci ∈ c, ∀ fi ∈ f, v.InIn ci fi = true ∧ v.InIn fi ci = false
  initInInCC : ∀ ci ∈ c, ∀ dj ∈ c, ci ≠ dj → v.InIn ci dj = true

/-- The objective expression set by `m.setObjective` in `build_model`:
rejection cost, arrival-delay cost, departure-delay cost and the
positional regularizer. -/
def objective (P : Params) (a f : List AC) (eps_p : ℚ) (v : Assign) : ℚ :=
  (f.map (fun fi => P.P_Rej fi * (1 - b2q (v.Accept fi)))).sum
  + (f.map (fun fi => P.P_Arr fi * v.D_Arr fi)).sum
  + (a.map (fun ai => P.P_Dep ai * v.D_Dep ai)).sum
  + eps_p * (f.map (fun fi => v.X fi + v.Y fi)).sum

/-- The terms of the objective attributable to one future aircraft. -/
def objContrib (P : Params) (eps_p : ℚ) (v : Assign) (fi : AC) : ℚ :=
  P.P_Rej fi * (1 - b2q (v.Accept fi)) + P.P_Arr fi * v.D_Arr fi
  + P.P_Dep fi * v.D_Dep fi + eps_p * (v.X fi + v.Y fi)

/-- Modelled from the spec: `check_initial_configuration` is imported from
the model module by example_main.py and called as
`check_initial_configuration(params, c, HW, HL, Buffer)`, but its
definition is not present under src/.  Per the spec it reports an
aircraft whose footprint cannot physically fit inside the hangar
interior after buffer deflation, i.e. whose width or length exceeds the
hangar dimension minus twice the buffer; it receives the current
aircraft list `c` and returns the list of violating aircraft. -/
def check_initial_configuration (P : Params) (c : List AC)
    (HW HL Buffer : ℚ) : List AC :=
  c.filter fun ci =>
    decide (HW - 2 * Buffer < P.W ci) || decide (HL - 2 * Buffer < P.L ci)

/-- Outcome of one run of the driver `main` of example_main.py. -/
inductive RunOutcome where
  | emptyInstanceError : RunOutcome
  | violationsNoSolve : List AC → RunOutcome
  | solveAttempted : RunOutcome
deriving DecidableEq

/-- The control flow of `main` in example_main.py: raise a ValueError when
the aircraft list is empty, otherwise build the model, run
`check_initial_configuration` on the current aircraft, and solve only
when it reports no violations. -/
def example_main (P : Params) (a c : List AC) (HW HL Buffer : ℚ) : RunOutcome :=
  if a = [] then RunOutcome.emptyInstanceError
  else if check_initial_configuration P c HW HL Buffer = [] then
    RunOutcome.solveAttempted
  else RunOutcome.violationsNoSolve (check_initial_configuration P c HW HL Buffer)

/-- Python's builtin `round` on a one-argument call: round half to even. -/
def pyRound (x : ℚ) : ℤ :=
  if x - x.floor < 1 / 2 then x.floor
  else if 1 / 2 < x - x.floor then x.floor + 1
  else if 2 ∣ x.floor then x.floor else x.floor + 1

/-- The acceptance rounding of `solve_and_report` (model.py line 261):
`int(round(Accept[ai].X))`. -/
def reportAcceptedOf (x : ℚ) : ℤ := pyRound x

/-- The acceptance rounding of `analyze_solution_csv`
(analyze_solution.py lines 67 - 68): `1.0 if accepted >= 0.5 else 0.0`. -/
def analyzeAcceptedOf (x : ℚ) : ℚ := if 1 / 2 ≤ x then 1 else 0

/-- One row of the CSV report written by `solve_and_report` (the numeric
fields; the hangar dimensions and start-date stamp are omitted as no
claim concerns them). -/
structure Row where
  Aircraft : AC
  Accepted : ℤ
  Width : ℚ
  Length : ℚ
  ETA : ℚ
  Roll_In : ℚ
  X : ℚ
  Y : ℚ
  ServT : ℚ
  ETD : ℚ
  Roll_Out : ℚ
  D_Arr : ℚ
  D_Dep : ℚ
  Penalty_Reject : ℚ
  Penalty_ArrivalDelay : ℚ
  Penalty_DepartureDelay : ℚ

/-- The row built for aircraft `ai` by `solve_and_report`.  The dicts
`ETA`, `P_Rej`, `P_Arr` are keyed by the future aircraft only, so the
`.get(ai, 0.0)` defaults evaluate to 0 for the other aircraft, and
`D_Arr` is reported only when `ai in f`. -/
def reportRow (P : Params) (f : List AC) (v : Assign) (ai : AC) : Row where
  Aircraft := ai
  Accepted := reportAcceptedOf (b2q (v.Accept ai))
  Width := P.W ai
  Length := P.L ai
  ETA := if ai ∈ f then P.ETA ai else 0
  Roll_In := v.Roll_in ai
  X := v.X ai
  Y := v.Y ai
  ServT := P.ServT ai
  ETD := P.ETD ai
  Roll_Out := v.Roll_out ai
  D_Arr := if ai ∈ f then v.D_Arr ai else 0
  D_Dep := v.D_Dep ai
  Penalty_Reject := if ai ∈ f then P.P_Rej ai else 0
  Penalty_ArrivalDelay := if ai ∈ f then P.P_Arr ai else 0
  Penalty_DepartureDelay := P.P_Dep ai

/-- The full report of `solve_and_report`: one row per aircraft of `a`. -/
def solve_and_report_rows (P : Params) (a f : List AC) (v : Assign) : List Row :=
  a.map (reportRow P f v)

/-- The request classification of `analyze_solution_csv`:
`is_future = (p_rej > 0.0) or (p_arr > 0.0)`. -/
def rowIsFuture (r : Row) : Bool :=
  decide (0 < r.Penalty_Reject) || decide (0 < r.Penalty_ArrivalDelay)

/-- The tolerantly rounded acceptance value of a row inside
`analyze_solution_csv`. -/
def rowAccepted (r : Row) : ℚ := analyzeAcceptedOf (r.Accepted : ℚ)

/-- Accumulated `obj_rej` of `analyze_solution_csv` (added only in the
`is_future` branch of the loop). -/
def obj_rej (rows : List Row) : ℚ :=
  (rows.map (fun r => if rowIsFuture r then r.Penalty_Reject * (1 - rowAccepted r) else 0)).sum

/-- Accumulated `obj_arr` of `analyze_solution_csv`. -/
def obj_arr (rows : List Row) : ℚ :=
  (rows.map (fun r => if rowIsFuture r then r.Penalty_ArrivalDelay * r.D_Arr else 0)).sum

/-- Accumulated `obj_eps` of `analyze_solution_csv`. -/
def obj_eps (eps_p : ℚ) (rows : List Row) : ℚ :=
  (rows.map (fun r => if rowIsFuture r then eps_p * (r.X + r.Y) else 0)).sum

/-- Accumulated `obj_dep` of `analyze_solution_csv` (added for every row). -/
def obj_dep (rows : List Row) : ℚ :=
  (rows.map (fun r => r.Penalty_DepartureDelay * r.D_Dep)).sum

/-- Accumulated `total_D_Arr` of `analyze_solution_csv`. -/
def total_D_Arr (rows : List Row) : ℚ :=
  (rows.map (fun r => if rowIsFuture r then r.D_Arr else 0)).sum

/-- Accumulated `total_D_Dep` of `analyze_solution_csv`. -/
def total_D_Dep (rows : List Row) : ℚ :=
  (rows.map (fun r => r.D_Dep)).sum

/-- `n_requests` of `analyze_solution_csv`. -/
def n_requests (rows : List Row) : Nat := rows.countP rowIsFuture

/-- `n_accepted_requests` of `analyze_solution_csv`
(request rows with rounded acceptance above 0.5). -/
def n_accepted (rows : List Row) : Nat :=
  rows.countP fun r => rowIsFuture r && decide ((1 : ℚ) / 2 < rowAccepted r)

/-- `n_rejected_requests` of `analyze_solution_csv`. -/
def n_rejected (rows : List Row) : Nat :=
  rows.countP fun r => rowIsFuture r && !decide ((1 : ℚ) / 2 < rowAccepted r)

/-- The reconstructed total objective `obj_rej + obj_arr + obj_dep + obj_eps`. -/
def reconstructed_objective (eps_p : ℚ) (rows : List Row) : ℚ :=
  obj_rej rows + obj_arr rows + obj_dep rows + obj_eps eps_p rows

/-- The aggregated metrics dictionary returned by `analyze_solution_csv`. -/
structure Metrics where
  n_total : Nat
  n_current : Nat
  n_requests : Nat
  n_accepted : Nat
  n_rejected : Nat
  acceptance_rate : ℚ
  total_D_Arr : ℚ
  total_D_Dep : ℚ
  obj_rej : ℚ
  obj_arr : ℚ
  obj_dep : ℚ
  obj_eps : ℚ
  objective : ℚ

/-- `analyze_solution_csv`: raises (`none`) on an empty row list, and
otherwise aggregates the metrics, with `acceptance_rate` defined as 1.0
when there are no request rows. -/
def analyze_solution_csv (eps_p : ℚ) (rows : List Row) : Option Metrics :=
  if rows.isEmpty then none
  else some
    { n_total := rows.length
      n_current := rows.countP fun r => !rowIsFuture r
      n_requests := n_requests rows
      n_accepted := n_accepted rows
      n_rejected := n_rejected rows
      acceptance_rate :=
        if n_requests rows = 0 then 1
        else (n_accepted rows : ℚ) / (n_requests rows : ℚ)
      total_D_Arr := total_D_Arr rows
      total_D_Dep := total_D_Dep rows
      obj_rej := obj_rej rows
      obj_arr := obj_arr rows
      obj_dep := obj_dep rows
      obj_eps := obj_eps eps_p rows
      objective := reconstructed_objective eps_p rows }

/-! ## Concrete instances

Small concrete instances of the model, used to witness the universal
theorems below and to exhibit counterexamples.  In all of them the hangar
is 100 x 100 with buffer 5 and `epsilon_t = 1/10`, as in the driver's
constants (scaled down from 150 x 100 only in the hangar width, which is
free data). -/

/-- Aircraft id of the first current aircraft of the concrete instances. -/
def ac1 : AC := "c1"

/-- Aircraft id of the second current aircraft of the concrete instances. -/
def ac2 : AC := "c2"

/-- Aircraft id of the future aircraft of the concrete instances. -/
def af1 : AC := "f1"

/-- Instance A: one current aircraft `c1` at (5,5), one accepted future
aircraft `f1` parked directly above it at (5,20) with no lateral
separation, rolling in at 1 and out at 3 while `c1` stays until 4. -/
def cexA_P : Params where
  W := fun _ => 10
  L := fun _ => 10
  ETA := fun _ => 1
  ETD := fun i => if i = af1 then 3 else 4
  ServT := fun i => if i = af1 then 2 else 1
  P_Rej := fun _ => 100
  P_Arr := fun _ => 1
  P_Dep := fun _ => 1
  X_init := fun _ => 5
  Y_init := fun _ => 5

/-- All aircraft of instance A. -/
def cexA_a : List AC := [ac1, af1]

/-- Current aircraft of instance A. -/
def cexA_c : List AC := [ac1]

/-- Future aircraft of instance A. -/
def cexA_f : List AC := [af1]

/-- The assignment of instance A (`f1` above `c1`, both accepted,
`InIn[c1,f1]` fixed to 1 by the initial conditions). -/
def cexA_v : Assign where
  X := fun _ => 5
  Y := fun i => if i = af1 then 20 else 5
  Roll_in := fun i => if i = af1 then 1 else 0
  Roll_out := fun i => if i = af1 then 3 else 4
  D_Arr := fun _ => 0
  D_Dep := fun _ => 0
  Accept := fun _ => true
  Right := fun _ _ => false
  Above := fun x y => x == af1 && y == ac1
  OutIn := fun _ _ => false
  InIn := fun x y => x == ac1 && y == af1
  OutOut := fun _ _ => false
  InOut := fun x y => (x == ac1 && y == af1) || (x == af1 && y == ac1)

/-- Instance B: two current aircraft `c1`, `c2` side by side and one
rejected future aircraft `f1`.  The indicators `InOut[c2,c1]` and
`OutOut[c1,c2]` are exercised; `InOut` between two current aircraft is
not constrained by any e19/e20 row, which several claims probe. -/
def cexB_P : Params where
  W := fun _ => 10
  L := fun _ => 10
  ETA := fun _ => 10
  ETD := fun i => if i = ac2 then 1 else 0
  ServT := fun i => if i = ac2 then 1 else 0
  P_Rej := fun _ => 100
  P_Arr := fun _ => 0
  P_Dep := fun _ => 0
  X_init := fun i => if i = ac2 then 30 else 5
  Y_init := fun _ => 5

/-- All aircraft of instance B. -/
def cexB_a : List AC := [ac1, ac2, af1]

/-- Current aircraft of instance B. -/
def cexB_c : List AC := [ac1, ac2]

/-- Future aircraft of instance B. -/
def cexB_f : List AC := [af1]

/-- The assignment of instance B: `c2` right of `c1`, `f1` rejected with
all its variables zero, `InOut[c2,c1] = 1` although `c1` rolls out at 0,
before `c2` rolled in plus the minimum gap. -/
def cexB_v : Assign where
  X := fun i => if i = ac1 then 5 else if i = ac2 then 30 else 0
  Y := fun i => if i = af1 then 0 else 5
  Roll_in := fun _ => 0
  Roll_out := fun i => if i = ac2 then 1 else 0
  D_Arr := fun _ => 0
  D_Dep := fun _ => 0
  Accept := fun i => !(i == af1)
  Right := fun x y => x == ac2 && y == ac1
  Above := fun _ _ => false
  OutIn := fun _ _ => false
  InIn := fun x y => (x == ac1 || x == ac2) && !(x == y)
  OutOut := fun x y => x == ac1 && y == ac2
  InOut := fun x y => x == ac2 && y == ac1

/-- Instance B with the departure delay of `c1` raised to 1 although `c1`
rolls out at 0, on time for its expected departure 0: the delay
variables are only bounded below by the constraints. -/
def cexC_v : Assign :=
  { cexB_v with D_Dep := fun i => if i = ac1 then 1 else 0 }

/-- Instance D: a single future aircraft with rejection, arrival-delay and
departure-delay penalties all zero, accepted and placed at (5,5).  The
analyzer classifies its report row as a current aircraft. -/
def cexD_P : Params where
  W := fun _ => 10
  L := fun _ => 10
  ETA := fun _ => 0
  ETD := fun _ => 10
  ServT := fun _ => 1
  P_Rej := fun _ => 0
  P_Arr := fun _ => 0
  P_Dep := fun _ => 0
  X_init := fun _ => 0
  Y_init := fun _ => 0

/-- All (= future) aircraft of instance D. -/
def cexD_a : List AC := [af1]

/-- Current aircraft of instance D (none). -/
def cexD_c : List AC := []

/-- Future aircraft of instance D. -/
def cexD_f : List AC := [af1]

/-- The assignment of instance D. -/
def cexD_v : Assign where
  X := fun _ => 5
  Y := fun _ => 5
  Roll_in := fun _ => 0
  Roll_out := fun _ => 1
  D_Arr := fun _ => 0
  D_Dep := fun _ => 0
  Accept := fun _ => true
  Right := fun _ _ => false
  Above := fun _ _ => false
  OutIn := fun _ _ => false
  InIn := fun _ _ => false
  OutOut := fun _ _ => false
  InOut := fun _ _ => false

/-- Instance E: a single future aircraft whose width 200 exceeds the
100-wide hangar minus twice the buffer 5; no current aircraft. -/
def cexE_P : Params where
  W := fun _ => 200
  L := fun _ => 10
  ETA := fun _ => 0
  ETD := fun _ => 0
  ServT := fun _ => 0
  P_Rej := fun _ => 1
  P_Arr := fun _ => 1
  P_Dep := fun _ => 1
  X_init := fun _ => 0
  Y_init := fun _ => 0

/-- A report row with zero rejection and arrival-delay penalties: a
current-aircraft row for the analyzer. -/
def currentRow : Row where
  Aircraft := ac1
  Accepted := 1
  Width := 10
  Length := 10
  ETA := 0
  Roll_In := 0
  X := 5
  Y := 5
  ServT := 0
  ETD := 0
  Roll_Out := 0
  D_Arr := 0
  D_Dep := 0
  Penalty_Reject := 0
  Penalty_ArrivalDelay := 0
  Penalty_DepartureDelay := 0

/-! ## Helper lemmas -/

theorem b2q_nonneg (b : Bool) : 0 ≤ b2q b := by
  cases b <;> norm_num [b2q]

theorem b2q_le_one (b : Bool) : b2q b ≤ 1 := by
  cases b <;> norm_num [b2q]

theorem b2q_true : b2q true = 1 := rfl

theorem b2q_false : b2q false = 0 := rfl

theorem lastPos1_of_not_mem {x : AC} {l : List AC} (hx : x ∉ l) :
    ∀ i acc, lastPos1 x l i acc = acc := by
  induction l with
  | nil => intro i acc; rfl
  | cons y ys ih =>
    intro i acc
    have hxy : ¬ y = x := fun h => hx (h ▸ List.mem_cons_self y ys)
    have hxs : x ∉ ys := fun h => hx (List.mem_cons_of_mem y h)
    simp only [lastPos1, if_neg hxy]
    exact ih hxs (i + 1) acc

theorem lastPos1_of_mem {x : AC} {l : List AC} (hx : x ∈ l) :
    ∃ j, ∃ h : j < l.length, l.get ⟨j, h⟩ = x ∧
      ∀ i acc, lastPos1 x l i acc = i + j + 1 := by
  induction l with
  | nil => cases hx
  | cons y ys ih =>
    by_cases hys : x ∈ ys
    · obtain ⟨j, hj, hget, heq⟩ := ih hys
      refine ⟨j + 1, by simpa using Nat.succ_lt_succ hj, by simpa using hget, ?_⟩
      intro i acc
      simp only [lastPos1]
      rw [heq (i + 1)]
      omega
    · have hxy : y = x := by
        rcases List.mem_cons.mp hx with h | h
        · exact h.symm
        · exact absurd h hys
      refine ⟨0, by simp, by simpa using hxy, ?_⟩
      intro i acc
      simp only [lastPos1, if_pos hxy]
      rw [lastPos1_of_not_mem hys]

theorem ordIdx_inj {a : List AC} {x y : AC} (hx : x ∈ a) (hy : y ∈ a)
    (h : ordIdx a x = ordIdx a y) : x = y := by
  obtain ⟨j, hj, hgx, heqx⟩ := lastPos1_of_mem hx
  obtain ⟨k, hk, hgy, heqy⟩ := lastPos1_of_mem hy
  have hx0 := heqx 0 0
  have hy0 := heqy 0 0
  unfold ordIdx at h
  rw [hx0, hy0] at h
  have hjk : j = k := by omega
  subst hjk
  rw [← hgx, ← hgy]

theorem sum_map_congr {α : Type} (l : List α) (g h : α → ℚ)
    (H : ∀ x ∈ l, g x = h x) : (l.map g).sum = (l.map h).sum := by
  induction l with
  | nil => rfl
  | cons y ys ih =>
    simp only [List.map_cons, List.sum_cons]
    rw [H y (List.mem_cons_self y ys), ih fun x hx => H x (List.mem_cons_of_mem y hx)]

theorem sum_map_zero {α : Type} (l : List α) (g : α → ℚ)
    (H : ∀ x ∈ l, g x = 0) : (l.map g).sum = 0 := by
  induction l with
  | nil => rfl
  | cons y ys ih =>
    simp only [List.map_cons, List.sum_cons]
    rw [H y (List.mem_cons_self y ys), ih fun x hx => H x (List.mem_cons_of_mem y hx)]
    norm_num

/-! ## Feasibility of the concrete instances -/

theorem cexA_feasible :
    Feasible cexA_P cexA_a cexA_c cexA_f 100 100 5 (1 / 10) cexA_v := by
  constructor <;>
    simp [cexA_a, cexA_c, cexA_f, List.forall_mem_cons,
      cexA_P, cexA_v, M_T, maxEta, ordIdx, lastPos1, b2q, ac1, ac2, af1] <;>
    norm_num

theorem cexB_feasible :
    Feasible cexB_P cexB_a cexB_c cexB_f 100 100 5 (1 / 10) cexB_v := by
  constructor <;>
    simp [cexB_a, cexB_c, cexB_f, List.forall_mem_cons,
      cexB_P, cexB_v, M_T, maxEta, ordIdx, lastPos1, b2q, ac1, ac2, af1] <;>
    norm_num

theorem cexC_feasible :
    Feasible cexB_P cexB_a cexB_c cexB_f 100 100 5 (1 / 10) cexC_v := by
  constructor <;>
    simp [cexB_a, cexB_c, cexB_f, List.forall_mem_cons, cexC_v,
      cexB_P, cexB_v, M_T, maxEta, ordIdx, lastPos1, b2q, ac1, ac2, af1] <;>
    norm_num

theorem cexD_feasible :
    Feasible cexD_P cexD_a cexD_c cexD_f 100 100 5 (1 / 10) cexD_v := by
  constructor <;>
    simp [cexD_a, cexD_c, cexD_f, List.forall_mem_cons,
      cexD_P, cexD_v, M_T, maxEta, ordIdx, lastPos1, b2q, ac1, ac2, af1] <;>
    norm_num

/-! ## Claim theorems -/

/-- C1: in every feasible assignment of the built model, for every pair of
distinct aircraft i, j the sum of the six pairwise separation indicators
Right[j,i] + Right[i,j] + Above[j,i] + Above[i,j] + OutIn[i,j] + OutIn[j,i]
is at least Accept[i] + Accept[j] - 1 (constraint e13, stated once per
unordered pair and symmetric under swapping i and j); hence when both
aircraft are accepted at least one of the six indicators equals 1, and
when either aircraft is rejected the right-hand side is at most 0, so the
disjunction is not enforced. -/
theorem C1_nonoverlap_disjunction
    (P : Params) (a c f : List AC) (HW HL Buffer eps_t : ℚ) (v : Assign)
    (h : Feasible P a c f HW HL Buffer eps_t v)
    (i j : AC) (hi : i ∈ a) (hj : j ∈ a) (hne : i ≠ j) :
    (b2q (v.Right j i) + b2q (v.Right i j) + b2q (v.Above j i) + b2q (v.Above i j)
        + b2q (v.OutIn i j) + b2q (v.OutIn j i)
      ≥ b2q (v.Accept i) + b2q (v.Accept j) - 1)
    ∧ (v.Accept i = true → v.Accept j = true →
        v.Right j i = true ∨ v.Right i j = true ∨ v.Above j i = true ∨
          v.Above i j = true ∨ v.OutIn i j = true ∨ v.OutIn j i = true)
    ∧ ((v.Accept i = false ∨ v.Accept j = false) →
        b2q (v.Accept i) + b2q (v.Accept j) - 1 ≤ 0) := by
  have hord : ordIdx a i ≠ ordIdx a j := fun hh => hne (ordIdx_inj hi hj hh)
  have key : b2q (v.Right j i) + b2q (v.Right i j) + b2q (v.Above j i) + b2q (v.Above i j)
      + b2q (v.OutIn i j) + b2q (v.OutIn j i)
      ≥ b2q (v.Accept i) + b2q (v.Accept j) - 1 := by
    rcases Nat.lt_or_ge (ordIdx a i) (ordIdx a j) with hlt | hge
    · have h13 := h.e13 i hi j hj hlt
      linarith
    · have hlt : ordIdx a j < ordIdx a i := lt_of_le_of_ne hge (Ne.symm hord)
      have h13 := h.e13 j hj i hi hlt
      linarith
  refine ⟨key, ?_, ?_⟩
  · intro h1 h2
    by_contra hc
    push_neg at hc
    obtain ⟨n1, n2, n3, n4, n5, n6⟩ := hc
    simp only [Bool.not_eq_true] at n1 n2 n3 n4 n5 n6
    rw [h1, h2, n1, n2, n3, n4, n5, n6] at key
    norm_num [b2q] at key
  · intro hrej
    rcases hrej with hr | hr
    · rw [hr, b2q_false]
      have := b2q_le_one (v.Accept j)
      linarith
    · rw [hr, b2q_false]
      have := b2q_le_one (v.Accept i)
      linarith

/-- C1 witness: the disjunction theorem applied to the concrete feasible
instance B at the accepted pair c1, c2, which is separated by
Right[c2,c1] = 1. -/
theorem C1_nonoverlap_disjunction_witness :
    (b2q (cexB_v.Right ac2 ac1) + b2q (cexB_v.Right ac1 ac2) + b2q (cexB_v.Above ac2 ac1)
        + b2q (cexB_v.Above ac1 ac2) + b2q (cexB_v.OutIn ac1 ac2) + b2q (cexB_v.OutIn ac2 ac1)
      ≥ b2q (cexB_v.Accept ac1) + b2q (cexB_v.Accept ac2) - 1)
    ∧ (cexB_v.Accept ac1 = true → cexB_v.Accept ac2 = true →
        cexB_v.Right ac2 ac1 = true ∨ cexB_v.Right ac1 ac2 = true ∨
          cexB_v.Above ac2 ac1 = true ∨ cexB_v.Above ac1 ac2 = true ∨
          cexB_v.OutIn ac1 ac2 = true ∨ cexB_v.OutIn ac2 ac1 = true)
    ∧ ((cexB_v.Accept ac1 = false ∨ cexB_v.Accept ac2 = false) →
        b2q (cexB_v.Accept ac1) + b2q (cexB_v.Accept ac2) - 1 ≤ 0) :=
  C1_nonoverlap_disjunction cexB_P cexB_a cexB_c cexB_f 100 100 5 (1 / 10) cexB_v
    cexB_feasible ac1 ac2 (by decide) (by decide) (by decide)

/-- C2 counterexample: in the feasible assignment of instance A the future
aircraft f1 sits directly above the current aircraft c1 with no lateral
separation, yet c1 rolled in at time 0, long before f1 rolls out at 3:
the claimed bound Roll_in[i] >= Roll_out[j] + epsilon_t fails for
i = c1, j = f1 because constraint e22 is gated on InIn[i,j] = 0 and here
InIn[c1,f1] is fixed to 1. -/
theorem C2_blocking_counterexample :
    Feasible cexA_P cexA_a cexA_c cexA_f 100 100 5 (1 / 10) cexA_v
    ∧ cexA_v.Above af1 ac1 = true
    ∧ cexA_v.Right ac1 af1 = false
    ∧ cexA_v.Right af1 ac1 = false
    ∧ af1 ∈ cexA_f
    ∧ ¬ (cexA_v.Roll_in ac1 ≥ cexA_v.Roll_out af1 + 1 / 10) :=
  ⟨cexA_feasible, by decide, by decide, by decide, by decide,
    by simp [cexA_v, ac1, af1]; norm_num⟩

/-- C2 (amended): in every feasible assignment, when aircraft j is
directly above aircraft i with no lateral separation (Above[j,i] = 1,
Right[i,j] = Right[j,i] = 0), provided service times are nonnegative and
every aircraft is current or future, aircraft i cannot roll out before j
does (Roll_out[i] >= Roll_out[j] + epsilon_t, via e21 when
InIn[i,j] = 1 and via e22 plus e04 when InIn[i,j] = 0); the roll-in
bound Roll_in[i] >= Roll_out[j] + epsilon_t additionally requires
InIn[i,j] = 0, the gate of constraint e22 — it is not implied by the
spatial situation alone. -/
theorem C2_blocking_amended
    (P : Params) (a c f : List AC) (HW HL Buffer eps_t : ℚ) (v : Assign)
    (h : Feasible P a c f HW HL Buffer eps_t v)
    (hpart : ∀ x ∈ a, x ∈ c ∨ x ∈ f)
    (i j : AC) (hi : i ∈ a) (hj : j ∈ a) (hne : i ≠ j)
    (hServ : 0 ≤ P.ServT i)
    (hab : v.Above j i = true)
    (hr1 : v.Right i j = false) (hr2 : v.Right j i = false) :
    v.Roll_out i ≥ v.Roll_out j + eps_t
    ∧ ((i ∈ f ∨ j ∈ f) → v.InIn i j = false →
        v.Roll_in i ≥ v.Roll_out j + eps_t) := by
  have h04 := h.e04 i hi
  have hro : v.Roll_out i ≥ v.Roll_in i := by
    have := mul_nonneg hServ (b2q_nonneg (v.Accept i))
    linarith
  have second : (i ∈ f ∨ j ∈ f) → v.InIn i j = false →
      v.Roll_in i ≥ v.Roll_out j + eps_t := by
    intro hf hInIn
    have h22 := h.e22 i hi j hj hne hf
    rw [hab, hr1, hr2, hInIn] at h22
    simp [b2q] at h22
    linarith
  refine ⟨?_, second⟩
  cases hInIn : v.InIn i j with
  | true =>
    have h21 := h.e21 i hi j hj hne
    rw [hab, hr1, hr2, hInIn] at h21
    simp [b2q] at h21
    linarith
  | false =>
    have hf : i ∈ f ∨ j ∈ f := by
      rcases hpart i hi with hic | hif
      · rcases hpart j hj with hjc | hjf
        · exact absurd (h.initInInCC i hic j hjc hne) (by simp [hInIn])
        · exact Or.inr hjf
      · exact Or.inl hif
    have := second hf hInIn
    linarith

/-- C2 witness: the amended blocking theorem applied to instance A at
i = c1, j = f1, where c1 (Roll_out 4) indeed leaves after f1
(Roll_out 3) plus the minimum gap 1/10. -/
theorem C2_blocking_amended_witness :
    cexA_v.Roll_out ac1 ≥ cexA_v.Roll_out af1 + 1 / 10
    ∧ ((ac1 ∈ cexA_f ∨ af1 ∈ cexA_f) → cexA_v.InIn ac1 af1 = false →
        cexA_v.Roll_in ac1 ≥ cexA_v.Roll_out af1 + 1 / 10) :=
  C2_blocking_amended cexA_P cexA_a cexA_c cexA_f 100 100 5 (1 / 10) cexA_v
    cexA_feasible (by decide) ac1 af1 (by decide) (by decide) (by decide)
    (by simp [cexA_P, ac1, af1]) (by decide) (by decide) (by decide)

/-- C3 counterexample: in the feasible assignment of instance B, both
current aircraft are accepted and InOut[c2,c1] = 1, yet c1 rolls out at
time 0, before c2 rolled in plus the minimum gap: the claimed big-M link
for the InOut indicator does not exist for current-current pairs, since
e19/e20 rows are only generated when one aircraft of the pair is a
future aircraft. -/
theorem C3_temporal_linking_counterexample :
    Feasible cexB_P cexB_a cexB_c cexB_f 100 100 5 (1 / 10) cexB_v
    ∧ cexB_v.Accept ac2 = true
    ∧ cexB_v.Accept ac1 = true
    ∧ cexB_v.InOut ac2 ac1 = true
    ∧ ¬ (cexB_v.Roll_out ac1 ≥ cexB_v.Roll_in ac2 + 1 / 10) :=
  ⟨cexB_feasible, by decide, by decide, by decide,
    by simp [cexB_v, ac1, ac2, af1]⟩

/-- C3 (amended): the big-M links of the four temporal indicator families
as `build_model` actually generates them, in every feasible assignment:
OutIn is linked in one direction only (indicator 1 forces
Roll_out[i] + epsilon_t <= Roll_in[j]) for every ordered pair of
distinct aircraft, with no acceptance gate; InIn is linked in both
directions gated by both acceptance bits, but only for pairs of distinct
future aircraft; OutOut likewise but only for pairs in list order
(one indicator per unordered pair, the reverse-order variable is
unconstrained); InOut likewise but only for pairs with at least one
future aircraft. -/
theorem C3_temporal_linking_amended
    (P : Params) (a c f : List AC) (HW HL Buffer eps_t : ℚ) (v : Assign)
    (h : Feasible P a c f HW HL Buffer eps_t v) :
    (∀ ai ∈ a, ∀ bi ∈ a, ai ≠ bi → v.OutIn ai bi = true →
        v.Roll_out ai + eps_t ≤ v.Roll_in bi)
    ∧ (∀ fi ∈ f, ∀ gi ∈ f, fi ≠ gi →
        v.Accept fi = true → v.Accept gi = true →
        (v.InIn fi gi = true → v.Roll_in gi ≥ v.Roll_in fi + eps_t)
        ∧ (v.InIn fi gi = false → v.Roll_in fi ≥ v.Roll_in gi + eps_t))
    ∧ (∀ ai ∈ a, ∀ bi ∈ a, ordIdx a ai < ordIdx a bi →
        v.Accept ai = true → v.Accept bi = true →
        (v.OutOut ai bi = true → v.Roll_out bi ≥ v.Roll_out ai + eps_t)
        ∧ (v.OutOut ai bi = false → v.Roll_out ai ≥ v.Roll_out bi + eps_t))
    ∧ (∀ ai ∈ a, ∀ bi ∈ a, ai ≠ bi → (ai ∈ f ∨ bi ∈ f) →
        v.Accept ai = true → v.Accept bi = true →
        (v.InOut ai bi = true → v.Roll_out bi ≥ v.Roll_in ai + eps_t)
        ∧ (v.InOut ai bi = false → v.Roll_in ai ≥ v.Roll_out bi + eps_t)) := by
  refine ⟨?_, ?_, ?_, ?_⟩
  · intro ai hai bi hbi hne hOI
    have h14 := h.e14 ai hai bi hbi hne
    rw [hOI] at h14
    simp [b2q] at h14
    linarith
  · intro fi hfi gi hgi hne ha1 ha2
    constructor
    · intro hII
      have h15 := h.e15 fi hfi gi hgi hne
      rw [hII, ha1, ha2] at h15
      simp [b2q] at h15
      linarith
    · intro hII
      have h16 := h.e16 fi hfi gi hgi hne
      rw [hII, ha1, ha2] at h16
      simp [b2q] at h16
      linarith
  · intro ai hai bi hbi hord ha1 ha2
    constructor
    · intro hOO
      have h17 := h.e17 ai hai bi hbi hord
      rw [hOO, ha1, ha2] at h17
      simp [b2q] at h17
      linarith
    · intro hOO
      have h18 := h.e18 ai hai bi hbi hord
      rw [hOO, ha1, ha2] at h18
      simp [b2q] at h18
      linarith
  · intro ai hai bi hbi hne hfut ha1 ha2
    constructor
    · intro hInOutv
      have h19 := h.e19 ai hai bi hbi hne hfut
      rw [hInOutv, ha1, ha2] at h19
      simp [b2q] at h19
      linarith
    · intro hInOutv
      have h20 := h.e20 ai hai bi hbi hne hfut
      rw [hInOutv, ha1, ha2] at h20
      simp [b2q] at h20
      linarith

/-- C3 witness: the amended linking theorem instantiated on the feasible
instance B. -/
theorem C3_temporal_linking_amended_witness :
    (∀ ai ∈ cexB_a, ∀ bi ∈ cexB_a, ai ≠ bi → cexB_v.OutIn ai bi = true →
        cexB_v.Roll_out ai + 1 / 10 ≤ cexB_v.Roll_in bi)
    ∧ (∀ fi ∈ cexB_f, ∀ gi ∈ cexB_f, fi ≠ gi →
        cexB_v.Accept fi = true → cexB_v.Accept gi = true →
        (cexB_v.InIn fi gi = true → cexB_v.Roll_in gi ≥ cexB_v.Roll_in fi + 1 / 10)
        ∧ (cexB_v.InIn fi gi = false → cexB_v.Roll_in fi ≥ cexB_v.Roll_in gi + 1 / 10))
    ∧ (∀ ai ∈ cexB_a, ∀ bi ∈ cexB_a, ordIdx cexB_a ai < ordIdx cexB_a bi →
        cexB_v.Accept ai = true → cexB_v.Accept bi = true →
        (cexB_v.OutOut ai bi = true → cexB_v.Roll_out bi ≥ cexB_v.Roll_out ai + 1 / 10)
        ∧ (cexB_v.OutOut ai bi = false → cexB_v.Roll_out ai ≥ cexB_v.Roll_out bi + 1 / 10))
    ∧ (∀ ai ∈ cexB_a, ∀ bi ∈ cexB_a, ai ≠ bi → (ai ∈ cexB_f ∨ bi ∈ cexB_f) →
        cexB_v.Accept ai = true → cexB_v.Accept bi = true →
        (cexB_v.InOut ai bi = true → cexB_v.Roll_out bi ≥ cexB_v.Roll_in ai + 1 / 10)
        ∧ (cexB_v.InOut ai bi = false → cexB_v.Roll_in ai ≥ cexB_v.Roll_out bi + 1 / 10)) :=
  C3_temporal_linking_amended cexB_P cexB_a cexB_c cexB_f 100 100 5 (1 / 10) cexB_v
    cexB_feasible

/-- C4: in every feasible assignment in which a future aircraft fi is
rejected (Accept[fi] = 0), constraint e02 together with the variables'
zero lower bounds forces X, Y, Roll_in, Roll_out, D_Arr and D_Dep of fi
to be exactly zero, and fi's contribution to the objective is exactly its
rejection penalty, with zero arrival-delay, departure-delay and
positional-regularizer cost. -/
theorem C4_rejected_zeroed
    (P : Params) (a c f : List AC) (HW HL Buffer eps_t : ℚ) (v : Assign)
    (h : Feasible P a c f HW HL Buffer eps_t v) (eps_p : ℚ)
    (fi : AC) (hfa : fi ∈ a) (hff : fi ∈ f) (hrej : v.Accept fi = false) :
    v.X fi = 0 ∧ v.Y fi = 0 ∧ v.Roll_in fi = 0 ∧ v.Roll_out fi = 0
    ∧ v.D_Arr fi = 0 ∧ v.D_Dep fi = 0
    ∧ objContrib P eps_p v fi = P.P_Rej fi
    ∧ P.P_Arr fi * v.D_Arr fi = 0
    ∧ P.P_Dep fi * v.D_Dep fi = 0
    ∧ eps_p * (v.X fi + v.Y fi) = 0 := by
  obtain ⟨hx, hy, hri, hro, hdd⟩ := h.nonneg fi hfa
  have hda := h.nonnegArr fi hff
  have h02 := h.e02 fi hff
  rw [hrej, b2q_false, mul_zero] at h02
  have hX : v.X fi = 0 := by linarith
  have hY : v.Y fi = 0 := by linarith
  have hRi : v.Roll_in fi = 0 := by linarith
  have hRo : v.Roll_out fi = 0 := by linarith
  have hDa : v.D_Arr fi = 0 := by linarith
  have hDd : v.D_Dep fi = 0 := by linarith
  refine ⟨hX, hY, hRi, hRo, hDa, hDd, ?_, ?_, ?_, ?_⟩
  · rw [objContrib, hrej, b2q_false, hDa, hDd, hX, hY]
    ring
  · rw [hDa]; ring
  · rw [hDd]; ring
  · rw [hX, hY]; ring

/-- C4 witness: the rejected future aircraft f1 of instance B, whose
variables are all zero and whose objective contribution is its rejection
penalty 100. -/
theorem C4_rejected_zeroed_witness :
    cexB_v.X af1 = 0 ∧ cexB_v.Y af1 = 0 ∧ cexB_v.Roll_in af1 = 0
    ∧ cexB_v.Roll_out af1 = 0 ∧ cexB_v.D_Arr af1 = 0 ∧ cexB_v.D_Dep af1 = 0
    ∧ objContrib cexB_P (1 / 1000) cexB_v af1 = cexB_P.P_Rej af1
    ∧ cexB_P.P_Arr af1 * cexB_v.D_Arr af1 = 0
    ∧ cexB_P.P_Dep af1 * cexB_v.D_Dep af1 = 0
    ∧ (1 / 1000 : ℚ) * (cexB_v.X af1 + cexB_v.Y af1) = 0 :=
  C4_rejected_zeroed cexB_P cexB_a cexB_c cexB_f 100 100 5 (1 / 10) cexB_v
    cexB_feasible (1 / 1000) af1 (by decide) (by decide) (by decide)

/-- C5: in every feasible assignment, a current aircraft has its
acceptance fixed to 1, its position fixed to the declared initial
position, its roll-in fixed to 0, InIn[ci,fi] = 1 and InIn[fi,ci] = 0
against every future aircraft, and InIn[ci,dj] = 1 against every other
current aircraft (the bound fixings 2.23 - 2.29 of build_model). -/
theorem C5_current_fixed
    (P : Params) (a c f : List AC) (HW HL Buffer eps_t : ℚ) (v : Assign)
    (h : Feasible P a c f HW HL Buffer eps_t v)
    (ci : AC) (hc : ci ∈ c) :
    v.Accept ci = true
    ∧ v.X ci = P.X_init ci
    ∧ v.Y ci = P.Y_init ci
    ∧ v.Roll_in ci = 0
    ∧ (∀ fi ∈ f, v.InIn ci fi = true ∧ v.InIn fi ci = false)
    ∧ (∀ dj ∈ c, dj ≠ ci → v.InIn ci dj = true) :=
  ⟨h.initAccept ci hc, h.initX ci hc, h.initY ci hc, h.initRollIn ci hc,
    fun fi hf => h.initInInCF ci hc fi hf,
    fun dj hdj hne => h.initInInCC ci hc dj hdj (Ne.symm hne)⟩

/-- C5 witness: the fixings of the current aircraft c1 in instance B. -/
theorem C5_current_fixed_witness :
    cexB_v.Accept ac1 = true
    ∧ cexB_v.X ac1 = cexB_P.X_init ac1
    ∧ cexB_v.Y ac1 = cexB_P.Y_init ac1
    ∧ cexB_v.Roll_in ac1 = 0
    ∧ (∀ fi ∈ cexB_f, cexB_v.InIn ac1 fi = true ∧ cexB_v.InIn fi ac1 = false)
    ∧ (∀ dj ∈ cexB_c, dj ≠ ac1 → cexB_v.InIn ac1 dj = true) :=
  C5_current_fixed cexB_P cexB_a cexB_c cexB_f 100 100 5 (1 / 10) cexB_v
    cexB_feasible ac1 (by decide)

/-- C6 counterexample: on an instance whose single (future) aircraft has
width 200, far larger than the 100-wide hangar minus twice the buffer 5,
the driver builds the model and proceeds to the solve with no
configuration error at all: `check_initial_configuration` is only
applied to the current aircraft list, which is empty here, so the claim
that a configuration error is raised whenever some aircraft cannot fit
is false. -/
theorem C6_config_check_counterexample :
    example_main cexE_P [af1] [] 100 100 5 = RunOutcome.solveAttempted
    ∧ 100 - 2 * 5 < cexE_P.W af1 := by
  constructor
  · decide
  · norm_num [cexE_P]

/-- C6 (amended): the empty-instance check lives in the driver `main`, not
in `build_model`, and raises before anything is built; the footprint
check `check_initial_configuration` (modelled from the spec, its
definition being absent from src/) runs after `build_model` has already
returned a complete model and covers only the current aircraft: the
solve is attempted exactly when every current aircraft fits the
buffer-deflated hangar.  An oversized future aircraft raises no error;
instead constraints e07 - e10 force any accepted future aircraft to fit,
so an oversized one can only be rejected. -/
theorem C6_config_check_amended
    (P : Params) (a c f : List AC) (HW HL Buffer : ℚ) :
    (a = [] → example_main P a c HW HL Buffer = RunOutcome.emptyInstanceError)
    ∧ (a ≠ [] → (example_main P a c HW HL Buffer = RunOutcome.solveAttempted ↔
        ∀ ci ∈ c, P.W ci ≤ HW - 2 * Buffer ∧ P.L ci ≤ HL - 2 * Buffer))
    ∧ (∀ eps_t v, Feasible P a c f HW HL Buffer eps_t v →
        ∀ fi ∈ f, v.Accept fi = true →
          P.W fi ≤ HW - 2 * Buffer ∧ P.L fi ≤ HL - 2 * Buffer) := by
  refine ⟨fun ha => by rw [example_main, if_pos ha], fun ha => ?_,
    fun eps_t v h fi hf hacc => ?_⟩
  · rw [example_main, if_neg ha]
    by_cases hchk : check_initial_configuration P c HW HL Buffer = []
    · rw [if_pos hchk]
      simp only [true_iff]
      intro ci hci
      have hp := List.filter_eq_nil_iff.mp hchk ci hci
      simp only [Bool.or_eq_true, decide_eq_true_eq, not_or, not_lt] at hp
      exact hp
    · rw [if_neg hchk]
      constructor
      · intro hcon
        exact absurd hcon (by simp)
      · intro hfit
        exfalso
        apply hchk
        apply List.filter_eq_nil_iff.mpr
        intro ci hci
        have := hfit ci hci
        simp only [Bool.or_eq_true, decide_eq_true_eq, not_or, not_lt]
        exact this
  · have h07 := h.e07 fi hf
    have h08 := h.e08 fi hf
    have h09 := h.e09 fi hf
    have h10 := h.e10 fi hf
    rw [hacc, b2q_true] at h07 h08 h09 h10
    constructor <;> linarith

/-- C6 witness: the amended theorem applied to instance A, whose aircraft
all fit, so the driver reaches the solve, and whose accepted future
aircraft f1 is confirmed to fit the deflated hangar. -/
theorem C6_config_check_amended_witness :
    example_main cexA_P cexA_a cexA_c 100 100 5 = RunOutcome.solveAttempted
    ∧ (cexA_P.W af1 ≤ 100 - 2 * 5 ∧ cexA_P.L af1 ≤ 100 - 2 * 5) :=
  ⟨((C6_config_check_amended cexA_P cexA_a cexA_c cexA_f 100 100 5).2.1
      (by decide)).mpr
      (by intro ci hci; fin_cases hci; exact ⟨by norm_num [cexA_P], by norm_num [cexA_P]⟩),
    (C6_config_check_amended cexA_P cexA_a cexA_c cexA_f 100 100 5).2.2
      (1 / 10) cexA_v cexA_feasible af1 (by decide) (by decide)⟩

/-! ## Reporter lemmas -/

theorem ratFloor_eq (x : ℚ) : x.floor = ⌊x⌋ :=
  (Rat.floor_def' x).trans Rat.floor_def.symm

theorem pyRound_zero : pyRound 0 = 0 := by
  have h : (0 : ℚ).floor = 0 := by rw [ratFloor_eq]; exact Int.floor_zero
  rw [pyRound, h]
  norm_num

theorem pyRound_one : pyRound 1 = 1 := by
  have h : (1 : ℚ).floor = 1 := by rw [ratFloor_eq]; exact Int.floor_one
  rw [pyRound, h]
  norm_num

theorem rowAccepted_reportRow (P : Params) (f : List AC) (v : Assign) (ai : AC) :
    rowAccepted (reportRow P f v ai) = b2q (v.Accept ai) := by
  cases hb : v.Accept ai <;>
    norm_num [rowAccepted, reportRow, reportAcceptedOf, analyzeAcceptedOf,
      pyRound_zero, pyRound_one, b2q, hb]

theorem rowIsFuture_reportRow_false (P : Params) (f : List AC) (v : Assign)
    (x : AC) (hx : x ∉ f) : rowIsFuture (reportRow P f v x) = false := by
  simp [rowIsFuture, reportRow, hx]

theorem rowIsFuture_reportRow_true (P : Params) (f : List AC) (v : Assign)
    (x : AC) (hx : x ∈ f) (hc : 0 < P.P_Rej x ∨ 0 < P.P_Arr x) :
    rowIsFuture (reportRow P f v x) = true := by
  rcases hc with hh | hh <;> simp [rowIsFuture, reportRow, hx, hh]

theorem obj_rej_append (l1 l2 : List Row) :
    obj_rej (l1 ++ l2) = obj_rej l1 + obj_rej l2 := by
  simp [obj_rej]

theorem obj_arr_append (l1 l2 : List Row) :
    obj_arr (l1 ++ l2) = obj_arr l1 + obj_arr l2 := by
  simp [obj_arr]

theorem obj_dep_append (l1 l2 : List Row) :
    obj_dep (l1 ++ l2) = obj_dep l1 + obj_dep l2 := by
  simp [obj_dep]

theorem obj_eps_append (eps_p : ℚ) (l1 l2 : List Row) :
    obj_eps eps_p (l1 ++ l2) = obj_eps eps_p l1 + obj_eps eps_p l2 := by
  simp [obj_eps]

theorem obj_rej_report_nonfuture (P : Params) (f : List AC) (v : Assign)
    (l : List AC) (hl : ∀ x ∈ l, x ∉ f) :
    obj_rej (l.map (reportRow P f v)) = 0 := by
  rw [obj_rej, List.map_map]
  apply sum_map_zero
  intro x hx
  simp [Function.comp, rowIsFuture_reportRow_false P f v x (hl x hx)]

theorem obj_arr_report_nonfuture (P : Params) (f : List AC) (v : Assign)
    (l : List AC) (hl : ∀ x ∈ l, x ∉ f) :
    obj_arr (l.map (reportRow P f v)) = 0 := by
  rw [obj_arr, List.map_map]
  apply sum_map_zero
  intro x hx
  simp [Function.comp, rowIsFuture_reportRow_false P f v x (hl x hx)]

theorem obj_eps_report_nonfuture (P : Params) (f : List AC) (v : Assign)
    (eps_p : ℚ) (l : List AC) (hl : ∀ x ∈ l, x ∉ f) :
    obj_eps eps_p (l.map (reportRow P f v)) = 0 := by
  rw [obj_eps, List.map_map]
  apply sum_map_zero
  intro x hx
  simp [Function.comp, rowIsFuture_reportRow_false P f v x (hl x hx)]

theorem obj_dep_report (P : Params) (f : List AC) (v : Assign) (l : List AC) :
    obj_dep (l.map (reportRow P f v)) = (l.map fun ai => P.P_Dep ai * v.D_Dep ai).sum := by
  rw [obj_dep, List.map_map]
  apply sum_map_congr
  intro x hx
  simp [Function.comp, reportRow]

theorem obj_rej_report_future (P : Params) (f : List AC) (v : Assign)
    (l : List AC) (hsub : ∀ x ∈ l, x ∈ f)
    (hclass : ∀ x ∈ l, 0 < P.P_Rej x ∨ 0 < P.P_Arr x) :
    obj_rej (l.map (reportRow P f v))
      = (l.map fun fi => P.P_Rej fi * (1 - b2q (v.Accept fi))).sum := by
  rw [obj_rej, List.map_map]
  apply sum_map_congr
  intro x hx
  have hfut := rowIsFuture_reportRow_true P f v x (hsub x hx) (hclass x hx)
  have hacc := rowAccepted_reportRow P f v x
  simp only [Function.comp_apply, hfut, hacc, eq_self_iff_true, if_true]
  simp [reportRow, hsub x hx]

theorem obj_arr_report_future (P : Params) (f : List AC) (v : Assign)
    (l : List AC) (hsub : ∀ x ∈ l, x ∈ f)
    (hclass : ∀ x ∈ l, 0 < P.P_Rej x ∨ 0 < P.P_Arr x) :
    obj_arr (l.map (reportRow P f v))
      = (l.map fun fi => P.P_Arr fi * v.D_Arr fi).sum := by
  rw [obj_arr, List.map_map]
  apply sum_map_congr
  intro x hx
  have hfut := rowIsFuture_reportRow_true P f v x (hsub x hx) (hclass x hx)
  simp only [Function.comp_apply, hfut, eq_self_iff_true, if_true]
  simp [reportRow, hsub x hx]

theorem obj_eps_report_future (P : Params) (f : List AC) (v : Assign)
    (eps_p : ℚ) (l : List AC) (hsub : ∀ x ∈ l, x ∈ f)
    (hclass : ∀ x ∈ l, 0 < P.P_Rej x ∨ 0 < P.P_Arr x) :
    obj_eps eps_p (l.map (reportRow P f v))
      = eps_p * (l.map fun fi => v.X fi + v.Y fi).sum := by
  rw [obj_eps, List.map_map, ← List.sum_map_mul_left]
  apply sum_map_congr
  intro x hx
  have hfut := rowIsFuture_reportRow_true P f v x (hsub x hx) (hclass x hx)
  simp only [Function.comp_apply, hfut, eq_self_iff_true, if_true]
  simp [reportRow]

/-- C7 (amended): for every assignment returned for a built model whose
aircraft list is c ++ f (as `build_sets` constructs it) with c and f
disjoint, the Reporter's reconstructed objective
obj_rej + obj_arr + obj_dep + obj_eps computed by `analyze_solution_csv`
from the report rows equals the model objective exactly — provided every
future aircraft carries a positive rejection or arrival-delay penalty,
so that the analyzer's penalty-sign classification agrees with the
instance's current/future partition (the agreement condition of spec
section 9). -/
theorem C7_objective_reconstruction_amended
    (P : Params) (c f : List AC) (eps_p : ℚ) (v : Assign)
    (hdisj : ∀ x ∈ c, x ∉ f)
    (hclass : ∀ fi ∈ f, 0 < P.P_Rej fi ∨ 0 < P.P_Arr fi) :
    reconstructed_objective eps_p (solve_and_report_rows P (c ++ f) f v)
      = objective P (c ++ f) f eps_p v := by
  have hsubf : ∀ x ∈ f, x ∈ f := fun x hx => hx
  rw [reconstructed_objective, solve_and_report_rows, List.map_append,
    obj_rej_append, obj_arr_append, obj_dep_append, obj_eps_append,
    obj_rej_report_nonfuture P f v c hdisj,
    obj_arr_report_nonfuture P f v c hdisj,
    obj_eps_report_nonfuture P f v eps_p c hdisj,
    obj_rej_report_future P f v f hsubf hclass,
    obj_arr_report_future P f v f hsubf hclass,
    obj_eps_report_future P f v eps_p f hsubf hclass,
    obj_dep_report P f v c, obj_dep_report P f v f,
    objective, List.map_append, List.sum_append]
  ring

/-- C7 witness: on the feasible instance B (aircraft list c1, c2, f1 =
cexB_c ++ cexB_f, rejection penalty of f1 positive) the reconstructed
objective equals the model objective. -/
theorem C7_objective_reconstruction_amended_witness :
    reconstructed_objective (1 / 1000)
        (solve_and_report_rows cexB_P (cexB_c ++ cexB_f) cexB_f cexB_v)
      = objective cexB_P (cexB_c ++ cexB_f) cexB_f (1 / 1000) cexB_v :=
  C7_objective_reconstruction_amended cexB_P cexB_c cexB_f (1 / 1000) cexB_v
    (by decide) (by intro fi hfi; fin_cases hfi; left; norm_num [cexB_P])

/-- C7 counterexample: instance D has one future aircraft whose rejection
and arrival-delay penalties are both zero, so the analyzer classifies
its row as a current aircraft and drops the positional-regularizer term:
the reconstructed objective is 0 while the model objective of the same
feasible assignment is 1/100. -/
theorem C7_objective_reconstruction_counterexample :
    Feasible cexD_P cexD_a cexD_c cexD_f 100 100 5 (1 / 10) cexD_v
    ∧ reconstructed_objective (1 / 1000)
        (solve_and_report_rows cexD_P cexD_a cexD_f cexD_v) = 0
    ∧ objective cexD_P cexD_a cexD_f (1 / 1000) cexD_v = 1 / 100
    ∧ reconstructed_objective (1 / 1000)
        (solve_and_report_rows cexD_P cexD_a cexD_f cexD_v)
      ≠ objective cexD_P cexD_a cexD_f (1 / 1000) cexD_v := by
  have h1 : reconstructed_objective (1 / 1000)
      (solve_and_report_rows cexD_P cexD_a cexD_f cexD_v) = 0 := by
    simp [reconstructed_objective, solve_and_report_rows, obj_rej, obj_arr,
      obj_dep, obj_eps, rowIsFuture, reportRow, cexD_P, cexD_v, cexD_a, cexD_f, af1]
  have h2 : objective cexD_P cexD_a cexD_f (1 / 1000) cexD_v = 1 / 100 := by
    simp [objective, cexD_P, cexD_v, cexD_a, cexD_f, b2q]
    norm_num
  exact ⟨cexD_feasible, h1, h2, by rw [h1, h2]; norm_num⟩

/-- C8 counterexample: the departure delay is only bounded below, never
tied to zero for an on-time aircraft: instance B with D_Dep[c1] raised
to 1 stays feasible although c1 rolls out at 0, on time for its expected
departure 0 — refuting the claimed equivalence D_Dep = 0 iff
Roll_out <= ETD. -/
theorem C8_delay_counterexample :
    Feasible cexB_P cexB_a cexB_c cexB_f 100 100 5 (1 / 10) cexC_v
    ∧ cexC_v.Roll_out ac1 ≤ cexB_P.ETD ac1
    ∧ cexC_v.D_Dep ac1 ≠ 0 :=
  ⟨cexC_feasible,
    by simp [cexC_v, cexB_v, cexB_P, ac1, ac2],
    by simp [cexC_v, ac1]⟩

/-- C8 (amended): in every feasible assignment, the departure delay of
every aircraft satisfies D_Dep >= 0 and D_Dep >= Roll_out - ETD, the
arrival delay of every future aircraft satisfies D_Arr >= 0 and
D_Arr >= Roll_in - ETA, and a zero delay implies the corresponding roll
time is on time (D_Dep = 0 implies Roll_out <= ETD; D_Arr = 0 implies
Roll_in <= ETA).  The converse direction (delay forced to zero whenever
the roll time is on time) is not enforced by the constraints; it is only
favoured by the minimization when the penalty rate is positive. -/
theorem C8_delay_amended
    (P : Params) (a c f : List AC) (HW HL Buffer eps_t : ℚ) (v : Assign)
    (h : Feasible P a c f HW HL Buffer eps_t v) :
    (∀ ai ∈ a, 0 ≤ v.D_Dep ai ∧ v.Roll_out ai - P.ETD ai ≤ v.D_Dep ai ∧
        (v.D_Dep ai = 0 → v.Roll_out ai ≤ P.ETD ai))
    ∧ (∀ fi ∈ f, 0 ≤ v.D_Arr fi ∧ v.Roll_in fi - P.ETA fi ≤ v.D_Arr fi ∧
        (v.D_Arr fi = 0 → v.Roll_in fi ≤ P.ETA fi)) := by
  constructor
  · intro ai hai
    obtain ⟨_, _, _, _, hdd⟩ := h.nonneg ai hai
    have h06 := h.e06 ai hai
    exact ⟨hdd, by linarith, fun hz => by rw [hz] at h06; linarith⟩
  · intro fi hfi
    have hda := h.nonnegArr fi hfi
    have h05 := h.e05 fi hfi
    exact ⟨hda, by linarith, fun hz => by rw [hz] at h05; linarith⟩

/-- C8 witness: the amended delay theorem instantiated on the feasible
instance B. -/
theorem C8_delay_amended_witness :
    (∀ ai ∈ cexB_a, 0 ≤ cexB_v.D_Dep ai ∧
        cexB_v.Roll_out ai - cexB_P.ETD ai ≤ cexB_v.D_Dep ai ∧
        (cexB_v.D_Dep ai = 0 → cexB_v.Roll_out ai ≤ cexB_P.ETD ai))
    ∧ (∀ fi ∈ cexB_f, 0 ≤ cexB_v.D_Arr fi ∧
        cexB_v.Roll_in fi - cexB_P.ETA fi ≤ cexB_v.D_Arr fi ∧
        (cexB_v.D_Arr fi = 0 → cexB_v.Roll_in fi ≤ cexB_P.ETA fi)) :=
  C8_delay_amended cexB_P cexB_a cexB_c cexB_f 100 100 5 (1 / 10) cexB_v
    cexB_feasible

/-- C9 counterexample: the two acceptance roundings disagree: at exactly
0.5 the analyzer's threshold rule yields 1, while `int(round(0.5))` in
`solve_and_report` rounds half to even and yields 0; and on input 1.5
the report rounding produces 2, a value outside {0,1}. -/
theorem C9_rounding_counterexample :
    analyzeAcceptedOf (1 / 2) = 1
    ∧ reportAcceptedOf (1 / 2) = 0
    ∧ reportAcceptedOf (3 / 2) = 2 := by
  refine ⟨by norm_num [analyzeAcceptedOf], ?_, ?_⟩
  · have h : ((1 : ℚ) / 2).floor = 0 := by
      rw [ratFloor_eq]
      exact Int.floor_eq_zero_iff.mpr (Set.mem_Ico.mpr (by norm_num))
    rw [reportAcceptedOf, pyRound, h]
    norm_num
  · have h : ((3 : ℚ) / 2).floor = 1 := by
      rw [ratFloor_eq]
      exact Int.floor_eq_iff.mpr (by norm_num)
    rw [reportAcceptedOf, pyRound, h]
    norm_num

/-- C9 (amended): the analyzer's rounding is the 0.5-threshold rule and
always produces 0 or 1; the report writer's rounding `int(round(x))` is
Python's round-half-to-even, which agrees with the 0.5 threshold and
stays in {0,1} for every solver value in [0,1] other than the exact tie
0.5 (where it returns 0, not 1). -/
theorem C9_rounding_amended :
    (∀ x : ℚ, analyzeAcceptedOf x = (if 1 / 2 ≤ x then 1 else 0)
      ∧ (analyzeAcceptedOf x = 0 ∨ analyzeAcceptedOf x = 1))
    ∧ (∀ x : ℚ, 0 ≤ x → x ≤ 1 → x ≠ 1 / 2 →
        (reportAcceptedOf x = 1 ↔ 1 / 2 ≤ x)
        ∧ (reportAcceptedOf x = 0 ∨ reportAcceptedOf x = 1)) := by
  constructor
  · intro x
    refine ⟨rfl, ?_⟩
    by_cases hx : (1 : ℚ) / 2 ≤ x
    · right
      rw [analyzeAcceptedOf, if_pos hx]
    · left
      rw [analyzeAcceptedOf, if_neg hx]
  · intro x h0 h1 hne
    rcases eq_or_lt_of_le h1 with heq | hlt
    · subst heq
      rw [reportAcceptedOf, pyRound_one]
      norm_num
    · have hfl0 : x.floor = 0 := by
        rw [ratFloor_eq]
        exact Int.floor_eq_zero_iff.mpr (Set.mem_Ico.mpr ⟨h0, hlt⟩)
      rw [reportAcceptedOf, pyRound, hfl0]
      simp only [Int.cast_zero, sub_zero]
      rcases lt_trichotomy x (1 / 2) with hc | hc | hc
      · rw [if_pos hc]
        exact ⟨iff_of_false (by norm_num) (not_le.mpr hc), Or.inl rfl⟩
      · exact absurd hc hne
      · rw [if_neg (by linarith), if_pos hc]
        exact ⟨iff_of_true (by norm_num) (le_of_lt hc), Or.inr (by norm_num)⟩

/-- C10: `analyze_solution_csv` is total on every nonempty row list, and
its acceptance_rate equals 1 when the file contains no request rows
(no division by zero) and n_accepted / n_requests otherwise. -/
theorem C10_acceptance_rate_total (eps_p : ℚ) (rows : List Row) (h : rows ≠ []) :
    ∃ m, analyze_solution_csv eps_p rows = some m
      ∧ (n_requests rows = 0 → m.acceptance_rate = 1)
      ∧ (n_requests rows ≠ 0 →
          m.acceptance_rate = (n_accepted rows : ℚ) / (n_requests rows : ℚ)) := by
  rw [analyze_solution_csv, if_neg (by simpa using h)]
  refine ⟨_, rfl, ?_, ?_⟩
  · intro hz
    simp [hz]
  · intro hz
    simp [hz]

/-- C10 witness: a one-row file with no request rows, on which the
analyzer returns acceptance rate 1 rather than dividing by zero. -/
theorem C10_acceptance_rate_total_witness :
    ([currentRow] : List Row) ≠ []
    ∧ ∃ m, analyze_solution_csv (1 / 1000) [currentRow] = some m
      ∧ (n_requests [currentRow] = 0 → m.acceptance_rate = 1)
      ∧ (n_requests [currentRow] ≠ 0 →
          m.acceptance_rate = (n_accepted [currentRow] : ℚ) / (n_requests [currentRow] : ℚ)) :=
  ⟨by simp, C10_acceptance_rate_total (1 / 1000) [currentRow] (by simp)⟩

end Hangar
